import Mathlib

/-!
Verification development for the `ezancestry` streamlit application
(`app.py`).  The pipeline pieces of the program (VCF loading, one-hot
encoding, dimensionality reduction, user-genotype filtering, KNN
imputation, KNN classification, and the `main` upload branch) are
shallowly embedded below; the external libraries (pandas, numpy,
category_encoders, scikit-learn) are modelled by their documented
behaviour at exactly the call sites the program uses.  NaN cells are
modelled with `Option`/a dedicated constructor, floating point numbers
with `ℚ`.
-/

namespace Ezancestry

/-- A pandas cell value: a string, a number, or NaN (missing). -/
inductive PyVal where
  | str : String → PyVal
  | num : ℚ → PyVal
  | nan : PyVal
deriving DecidableEq, Repr, Inhabited

/-- A pandas DataFrame: row labels (`index`), column labels (`columns`),
and a row-major grid of cells.  Cell lookup that falls outside the grid
is read as NaN, mirroring how the program only accesses cells that
exist. -/
structure Table where
  index : List String
  columns : List String
  rows : List (List PyVal)
deriving DecidableEq, Repr, Inhabited

/-- Positional cell access with NaN default. -/
def Table.cell (t : Table) (i j : Nat) : PyVal :=
  (t.rows.getD i []).getD j PyVal.nan

/-- `df.loc[label]`: the first row whose index label matches (`none` is
pandas' `KeyError`).  Faithful for the unique-index frames the program
uses. -/
def Table.lookupRow (t : Table) (label : String) : Option (List PyVal) :=
  (t.index.findIdx? (· = label)).map (fun i => t.rows.getD i [])

/-- `row[col]` by column name (NaN when the column is absent). -/
def cellOfRow (cols : List String) (row : List PyVal) (c : String) : PyVal :=
  row.getD (cols.indexOf c) PyVal.nan

/-- Cell access by row label and column name
(`df.loc[label][col]`-style, first occurrences). -/
def Table.cellAt (t : Table) (label c : String) : PyVal :=
  cellOfRow t.columns (t.rows.getD (t.index.indexOf label) []) c

/-- `df.values` of a numeric frame: `num` cells become rational entries,
NaN cells become `none`. -/
def tableToMatrix (t : Table) : List (List (Option ℚ)) :=
  t.rows.map (fun r => r.map (fun v => match v with
    | PyVal.num q => some q
    | _ => none))

/-! ### A stable insertion sort (model of numpy/pandas stable argsort) -/

/-- Insert `a` in front of the first element it compares `le` to. -/
def insertSorted (le : α → α → Bool) (a : α) : List α → List α
  | [] => [a]
  | b :: t => if le a b then a :: b :: t else b :: insertSorted le a t

/-- Stable sort by the boolean comparison `le`. -/
def sortByLe (le : α → α → Bool) (l : List α) : List α :=
  l.foldr (insertSorted le) []

theorem mem_insertSorted (le : α → α → Bool) (a x : α) (l : List α) :
    x ∈ insertSorted le a l ↔ x = a ∨ x ∈ l := by
  induction l with
  | nil => simp [insertSorted]
  | cons b t ih =>
      by_cases h : le a b = true
      · simp [insertSorted, h]
      · simp only [insertSorted, h, if_neg, Bool.false_eq_true, not_false_iff,
          List.mem_cons, ih]
        tauto

theorem mem_sortByLe (le : α → α → Bool) (x : α) (l : List α) :
    x ∈ sortByLe le l ↔ x ∈ l := by
  induction l with
  | nil => simp [sortByLe]
  | cons b t ih =>
      simp only [sortByLe, List.foldr_cons] at *
      rw [mem_insertSorted]
      simp [ih]

theorem length_insertSorted (le : α → α → Bool) (a : α) (l : List α) :
    (insertSorted le a l).length = l.length + 1 := by
  induction l with
  | nil => simp [insertSorted]
  | cons b t ih =>
      by_cases h : le a b = true
      · simp [insertSorted, h]
      · simp [insertSorted, h, ih]

theorem length_sortByLe (le : α → α → Bool) (l : List α) :
    (sortByLe le l).length = l.length := by
  induction l with
  | nil => rfl
  | cons b t ih =>
      simp only [sortByLe, List.foldr_cons] at *
      rw [length_insertSorted]
      simp [ih]

/-! ### Genotype loader: `vcf2df` (app.py lines 238-256) -/

/-- One VCF record: its `ID` and the per-sample genotype strings
(`variant.gt_bases`, e.g. `"A|G"`). -/
structure Variant where
  id : String
  gtBases : List String
deriving DecidableEq, Repr, Inhabited

/-- A parsed VCF file: the sample names and the variant records. -/
structure VCFFile where
  samples : List String
  variants : List Variant
deriving DecidableEq, Repr, Inhabited

/-- `df.join(meta, how="outer")` on the index: the row set becomes the
union of both indexes (left rows first), the columns are the left
columns followed by the metadata columns, and a label absent from one
side gets NaN in that side's columns. -/
def joinOuter (df meta : Table) : Table :=
  let extra := meta.index.filter (fun s => decide (s ∉ df.index))
  let newIndex := df.index ++ extra
  let leftPart : String → List PyVal := fun s =>
    match df.lookupRow s with
    | some r => r
    | none => List.replicate df.columns.length PyVal.nan
  let rightPart : String → List PyVal := fun s =>
    match meta.lookupRow s with
    | some r => r
    | none => List.replicate meta.columns.length PyVal.nan
  { index := newIndex
    columns := df.columns ++ meta.columns
    rows := newIndex.map (fun s => leftPart s ++ rightPart s) }

/-- `df[variant.ID] = [gt.replace("|","") for gt in variant.gt_bases]`:
column labels in first-assignment order, a repeated ID keeping the last
assigned values (pandas overwrites in place). -/
def vcfColumnIds (variants : List Variant) : List String :=
  (variants.map Variant.id).dedup

/-- The variant whose values a column ends up holding: the last variant
with that ID. -/
def vcfColumnVariant (variants : List Variant) (id : String) : Variant :=
  ((variants.filter (fun v => v.id = id)).getLastD ⟨id, []⟩)

/-- `vcf2df` (app.py 238-256): build a frame indexed by the VCF samples
with one genotype column per variant ID (phase separator `"|"`
stripped), then outer-join the sample metadata. -/
def vcf2df (vcf : VCFFile) (dfsamples : Table) : Table :=
  let colIds := vcfColumnIds vcf.variants
  let gdf : Table :=
    { index := vcf.samples
      columns := colIds
      rows := (List.range vcf.samples.length).map (fun s =>
        colIds.map (fun id => PyVal.str
          ((((vcfColumnVariant vcf.variants id).gtBases.getD s "").replace "|" "")))) }
  joinOuter gdf dfsamples

/-! ### Encoder: `encode_genotypes` (app.py lines 161-172)

Model of `category_encoders.one_hot.OneHotEncoder(cols=df.columns,
handle_missing="return_nan")`: fitting records the input width and, per
column, the distinct non-NaN values in first-occurrence order;
`transform` first checks that the input has the fitted width (raising
`ValueError("Unexpected input dimension")` otherwise), then replaces
each fitted column by one indicator column per recorded category
(missing cell → NaN across that column's indicators, unseen value → all
zeros). -/

/-- The `j`-th column of a frame as a cell list. -/
def colValues (t : Table) (j : Nat) : List PyVal :=
  t.rows.map (fun r => r.getD j PyVal.nan)

/-- Distinct non-NaN values of a column, first occurrence first. -/
def observedCats (col : List PyVal) : List PyVal :=
  (col.filter (fun v => decide (v ≠ PyVal.nan))).dedup

/-- A fitted one-hot encoder: input width and per-column categories. -/
structure OHE where
  dim : Nat
  mapping : List (String × List PyVal)
deriving DecidableEq, Repr, Inhabited

/-- `ohe.fit(df)`. -/
def fitOhe (df : Table) : OHE :=
  { dim := df.columns.length
    mapping := (List.range df.columns.length).map (fun j =>
      (df.columns.getD j "", observedCats (colValues df j))) }

/-- One-hot indicators for one cell against one category list. -/
def encodeCell (cats : List PyVal) (v : PyVal) : List PyVal :=
  if v = PyVal.nan then cats.map (fun _ => PyVal.nan)
  else cats.map (fun cat => PyVal.num (if v = cat then 1 else 0))

/-- `ohe.transform(df)`.  The width check comes first, as in
`category_encoders.utils.BaseEncoder.transform`. -/
def oheTransform (enc : OHE) (df : Table) : Except String Table :=
  if df.columns.length ≠ enc.dim then
    Except.error "Unexpected input dimension"
  else
    Except.ok
      { index := df.index
        columns := enc.mapping.flatMap (fun p =>
          (List.range p.2.length).map (fun i => p.1 ++ "_" ++ toString (i + 1)))
        rows := df.rows.map (fun r => enc.mapping.flatMap (fun p =>
          encodeCell p.2 (cellOfRow df.columns r p.1))) }

/-- `encode_genotypes` (app.py 161-172): fit the encoder on the frame
and return the encoded frame (re-indexed by the input's index) together
with the encoder. -/
def encode_genotypes (df : Table) : Table × OHE :=
  let ohe := fitOhe df
  (((oheTransform ohe df).toOption.getD ⟨[], [], []⟩), ohe)

/-! ### Dimensionality reducer: `dimensionality_reduction` (app.py 175-200) -/

/-- A fitted/fittable reducer object: `fit_transform` on a (possibly
NaN-carrying) matrix and `transform` on a clean matrix. -/
structure Reducer where
  fitTransform : List (List (Option ℚ)) → List (List ℚ)
  transform : List (List ℚ) → List (List ℚ)

/-- A 3-component embedding frame (`pd.DataFrame(X_reduced,
columns=["x","y","z"], index=X.index)`). -/
structure NumDf where
  index : List String
  columns : List String
  rows : List (List ℚ)

section Reduction

-- `sklearn.decomposition.PCA(n_components=…)` constructor,
-- `MulticoreTSNE(n_components=…, n_jobs=…)` constructor, and
-- `umap.UMAP(n_components=…, min_dist=…, metric=…, random_state=…)`
-- constructor: external libraries, abstracted as parameters.
variable (PCAlib : Nat → Reducer)
variable (TSNElib : Nat → Nat → Reducer)
variable (UMAPlib : Nat → ℚ → String → Nat → Reducer)

/-- `dimensionality_reduction` (app.py 175-200): select a reducer by
algorithm name (`None, None` for an unrecognized name), fit-transform
the encoded matrix and wrap it with columns `x, y, z`. -/
def dimensionality_reduction (X : Table) (algorithm : String) :
    Option (NumDf × Reducer) :=
  let n_components := 3
  if algorithm = "PCA" then
    let reducer := PCAlib n_components
    let X_reduced := reducer.fitTransform (tableToMatrix X)
    some (⟨X.index, ["x", "y", "z"], X_reduced⟩, reducer)
  else if algorithm = "t-SNE" then
    let reducer := TSNElib n_components 4
    let X_reduced := reducer.fitTransform (tableToMatrix X)
    some (⟨X.index, ["x", "y", "z"], X_reduced⟩, reducer)
  else if algorithm = "UMAP" then
    let reducer := UMAPlib n_components (2/10) "dice" 42
    let X_reduced := reducer.fitTransform (tableToMatrix X)
    some (⟨X.index, ["x", "y", "z"], X_reduced⟩, reducer)
  else
    none

end Reduction

/-! ### User ingestion: `filter_user_genotypes` (app.py 203-221) -/

/-- `filter_user_genotypes` (app.py 203-221): a one-row frame
`user_record` indexed `"your_sample"` with exactly the reference
frame's columns; each column is filled from
`userdf.loc[snp]["genotype"]` when the SNP is present in the upload and
stays NaN on `KeyError`; the reference frame gets the record appended. -/
def filter_user_genotypes (userdf aisnps_1kg : Table) : Table × Table :=
  let cols := aisnps_1kg.columns
  let userRow : List PyVal := cols.map (fun snp =>
    match userdf.lookupRow snp with
    | none => PyVal.nan
    | some row => cellOfRow userdf.columns row "genotype")
  let user_record : Table := ⟨["your_sample"], cols, [userRow]⟩
  (user_record,
    ⟨aisnps_1kg.index ++ ["your_sample"], cols, aisnps_1kg.rows ++ [userRow]⟩)

/-! ### Imputer: `impute_missing` (app.py 224-235)

Model of `sklearn.impute.KNNImputer(n_neighbors=9).fit_transform`
followed by `np.rint(imputed[-1])`.  Distances between rows are
nan-euclidean: rescaled squared distance over commonly observed
coordinates (a squared distance orders neighbors identically to the
euclidean distance sklearn computes, keeping everything rational).
Each missing cell is filled with the mean of the up-to-9 nearest other
rows that carry a value in that column; with no usable donor the
column mean of the observed values is used (0 for an all-missing
column, which sklearn would instead have dropped before the app ever
sees it). -/

/-- Rescaled squared nan-euclidean distance; `none` when the two rows
share no observed coordinate (sklearn's NaN distance, which excludes
the row as a donor). -/
def nanDist2 (ncols : Nat) (a b : List (Option ℚ)) : Option ℚ :=
  let ps := (a.zip b).filterMap (fun p =>
    match p.1, p.2 with
    | some u, some v => some ((u - v) ^ 2)
    | _, _ => none)
  if ps.length = 0 then none
  else some ((ncols : ℚ) * ps.sum / ps.length)

/-- Mean of the observed values in column `j` (0 when none). -/
def colMeanOrZero (X : List (List (Option ℚ))) (j : Nat) : ℚ :=
  let obs := X.filterMap (fun r => r.getD j none)
  if obs.length = 0 then 0 else obs.sum / obs.length

/-- Fill the missing cell `(i, j)` from the nearest donors. -/
def imputeCell (X : List (List (Option ℚ))) (k : Nat) (i j : Nat) : ℚ :=
  let row := X.getD i []
  let ncols := row.length
  let dOf : Nat → Option ℚ := fun t => nanDist2 ncols row (X.getD t [])
  let donors := (List.range X.length).filter (fun t =>
    (t != i) && ((X.getD t []).getD j none).isSome && (dOf t).isSome)
  let sorted := sortByLe (fun t u => decide ((dOf t).getD 0 ≤ (dOf u).getD 0)) donors
  let chosen := sorted.take k
  if chosen.length = 0 then colMeanOrZero X j
  else (chosen.filterMap (fun t => (X.getD t []).getD j none)).sum / chosen.length

/-- `KNNImputer(n_neighbors=9).fit_transform`: observed cells pass
through, missing cells are imputed. -/
def knnImpute (X : List (List (Option ℚ))) : List (List ℚ) :=
  (List.range X.length).map (fun i =>
    (List.range (X.getD i []).length).map (fun j =>
      match (X.getD i []).getD j none with
      | some v => v
      | none => imputeCell X 9 i j))

/-- `np.rint`: round to the nearest integer, halves to the even
integer. -/
def rint (q : ℚ) : ℚ :=
  let f : ℤ := ⌊q⌋
  let r : ℚ := q - f
  if r < 1/2 then (f : ℚ)
  else if 1/2 < r then (f + 1 : ℤ)
  else if Even f then (f : ℚ) else (f + 1 : ℤ)

/-- `impute_missing` (app.py 224-235): KNN-impute the combined matrix
and return `np.rint(imputed_aisnps[-1])`, the rounded final row only. -/
def impute_missing (aisnps_1kg : List (List (Option ℚ))) : List ℚ :=
  ((knnImpute aisnps_1kg).getLastD []).map rint

/-! ### Classifier (app.py 56, 84, 95, 100)

Model of `KNeighborsClassifier(n_neighbors=9, weights="distance",
n_jobs=2)` at the three call sites the app uses: `fit`,
`predict_proba`, `predict`.  The metric is abstracted to a
caller-supplied nonnegative distance; neighbor selection is a stable
sort on the training indices.  Weights follow sklearn's
`_get_weights(dist, "distance")`: inverse distances, except that a
query at distance 0 from some training point makes the weights the
indicator of distance 0.  `predict_proba` accumulates weights per
class (classes sorted as `np.unique`) and divides by the row sum
(sum 0 guarded to 1); `predict` takes the class at the argmax of the
probability row. -/

/-- A fitted KNN model. -/
structure KNNModel where
  k : Nat
  fitX : List (List ℚ)
  fitY : List String

/-- `KNeighborsClassifier(n_neighbors=9, weights="distance", n_jobs=2)`
followed by `knn.fit(X, y)`. -/
def knn9fit (X : List (List ℚ)) (y : List String) : KNNModel :=
  ⟨9, X, y⟩

/-- `np.unique(y)`: sorted distinct labels. -/
def npUnique (y : List String) : List String :=
  sortByLe (fun a b => decide (a ≤ b)) y.dedup

/-- Distance from the query to the `i`-th training point. -/
def nnDist (dist : List ℚ → List ℚ → ℚ) (m : KNNModel) (q : List ℚ)
    (i : Nat) : ℚ :=
  dist q (m.fitX.getD i [])

/-- `kneighbors`: the indices of the `k` training points nearest to the
query (stable argsort by distance, then take `k`). -/
def nnIdxs (dist : List ℚ → List ℚ → ℚ) (m : KNNModel) (q : List ℚ) :
    List Nat :=
  (sortByLe (fun i j => decide (nnDist dist m q i ≤ nnDist dist m q j))
    (List.range m.fitX.length)).take m.k

/-- Whether some selected neighbor is at distance 0 (sklearn's
`inf_row` case in `_get_weights`). -/
def nnZeroMode (dist : List ℚ → List ℚ → ℚ) (m : KNNModel) (q : List ℚ) :
    Bool :=
  (nnIdxs dist m q).any (fun i => decide (nnDist dist m q i = 0))

/-- `_get_weights(dist, "distance")` for one neighbor: inverse
distance, except that an exact match among the neighbors turns the
weights into the indicator of distance 0. -/
def nnWeight (dist : List ℚ → List ℚ → ℚ) (m : KNNModel) (q : List ℚ)
    (i : Nat) : ℚ :=
  if nnZeroMode dist m q then (if nnDist dist m q i = 0 then 1 else 0)
  else (nnDist dist m q i)⁻¹

/-- The (weight, label) pairs of the query's `k` nearest training
points. -/
def nbrPairs (dist : List ℚ → List ℚ → ℚ) (m : KNNModel) (q : List ℚ) :
    List (ℚ × String) :=
  (nnIdxs dist m q).map (fun i => (nnWeight dist m q i, m.fitY.getD i ""))

/-- Accumulated weight of the neighbors carrying class `c`. -/
def votesFor (pairs : List (ℚ × String)) (c : String) : ℚ :=
  ((pairs.filter (fun p => p.2 == c)).map Prod.fst).sum

/-- `knn.predict_proba([q])[0]`. -/
def knnPredictProba (dist : List ℚ → List ℚ → ℚ) (m : KNNModel)
    (q : List ℚ) : List ℚ :=
  let vs := (npUnique m.fitY).map (votesFor (nbrPairs dist m q))
  let t := vs.sum
  let t := if t = 0 then 1 else t
  vs.map (fun v => v / t)

/-- `np.argmax`: index of the first maximum (0 on an empty row). -/
def idxOfMax (l : List ℚ) : Nat :=
  (List.range l.length).foldl
    (fun best i => if l.getD best 0 < l.getD i 0 then i else best) 0

/-- `knn.predict([q])[0]`: the class at the argmax of the probability
row. -/
def knnPredict (dist : List ℚ → List ℚ → ℚ) (m : KNNModel)
    (q : List ℚ) : String :=
  (npUnique m.fitY).getD (idxOfMax (knnPredictProba dist m q)) ""

/-! ### The upload branch of `main` (app.py 59-115) -/

/-- A Python error surfacing from the branch. -/
inductive RunError where
  | nameError
  | valueError (msg : String)
deriving DecidableEq, Repr

/-- Observable effects of one run of the branch, in program order. -/
inductive Event where
  | stError (msg : String)
  | knnFitOn (X : List (List ℚ)) (y : List String)
  | plot (rows : List (List ℚ))
  | knnPredictOn (X : List (List ℚ))
  | knnPredictProbaOn (X : List (List ℚ))
  | crash (e : RunError)
deriving DecidableEq, Repr

/-- `dfsamples[population_level]` as a label list. -/
def popLabels (dfsamples : Table) (level : String) : List String :=
  let j := dfsamples.columns.indexOf level
  dfsamples.rows.map (fun r =>
    match r.getD j PyVal.nan with
    | PyVal.str s => s
    | _ => "")

/-- The upload branch of `main` (app.py 59-115), as the list of events
it emits.  `upload` is `none` when no file is uploaded, and otherwise
the outcome of `SNPs("user_snps_file.txt").snps` — `Except.error` when
parsing raises.  On a parse error the code shows `st.error` and sets
`user_file = None`, but control falls through to
`filter_user_genotypes(userdf, …)` with the local `userdf` never
assigned, so Python raises `NameError` and nothing further renders.
On a successful parse the branch filters, encodes (a raising
`encoder.transform` propagates), imputes, transforms through the
already-fitted reducer, fits the KNN on the pre-append embedding,
plots the appended embedding, and predicts on the user point. -/
def runUserBranch (aisnps_1kg : Table) (X_encoded : List (List (Option ℚ)))
    (encoder : OHE) (X_reduced : List (List ℚ))
    (reducerTransform : List (List ℚ) → List (List ℚ))
    (dfsamples : Table) (population_level : String)
    (upload : Option (Except String Table)) : List Event :=
  match upload with
  | none => [Event.plot X_reduced]
  | some (Except.error e) =>
      [Event.stError
        ("Sorry, there was a problem processing your genotypes file.\n " ++ e),
        Event.crash RunError.nameError]
  | some (Except.ok userdf) =>
      let fg := filter_user_genotypes userdf aisnps_1kg
      match oheTransform encoder fg.1 with
      | Except.error e => [Event.crash (RunError.valueError e)]
      | Except.ok user_encoded =>
          let X_encoded2 := X_encoded ++ tableToMatrix user_encoded
          let user_imputed := impute_missing X_encoded2
          let user_reduced := reducerTransform [user_imputed]
          let labels := popLabels dfsamples population_level
          let X_reduced2 := X_reduced ++ user_reduced
          [Event.knnFitOn X_reduced labels,
            Event.plot X_reduced2,
            Event.knnPredictOn user_reduced,
            Event.knnPredictProbaOn user_reduced]

/-! ### Concrete instances used by witnesses and counterexamples -/

/-- A library reducer that always emits 3 components (the shape
contract the app relies on). -/
def constReducer3 : Reducer :=
  ⟨fun M => M.map (fun _ => [0, 0, 0]), fun M => M.map (fun _ => [0, 0, 0])⟩

/-- Witness instantiation of the PCA constructor. -/
def wPCA : Nat → Reducer := fun _ => constReducer3

/-- Witness instantiation of the t-SNE constructor. -/
def wTSNE : Nat → Nat → Reducer := fun _ _ => constReducer3

/-- Witness instantiation of the UMAP constructor. -/
def wUMAP : Nat → ℚ → String → Nat → Reducer := fun _ _ _ _ => constReducer3

/-- A tiny sample-metadata frame. -/
def exMeta : Table :=
  ⟨["s1"], ["population", "super population", "gender"],
    [[PyVal.str "YRI", PyVal.str "AFR", PyVal.str "male"]]⟩

/-- A tiny one-sample, one-variant VCF. -/
def exVcf : VCFFile := ⟨["s1"], [⟨"rs1", ["A|G"]⟩]⟩

/-- A tiny reference genotype frame (one sample, one SNP). -/
def exAisnps : Table := ⟨["s1"], ["rs1"], [[PyVal.str "AA"]]⟩

/-- A tiny parsed user upload (`SNPs(...).snps`-shaped: indexed by
rsid, with a `genotype` column). -/
def exUserdf : Table := ⟨["rs1"], ["genotype"], [[PyVal.str "AG"]]⟩

/-- A one-column frame whose single genotype column has two observed
categories, so its one-hot encoding is wider than the input. -/
def exTwoCat : Table := ⟨["a", "b"], ["rs1"], [[PyVal.str "AA"], [PyVal.str "AG"]]⟩

/-! ### C6 -/

/-- C6: for every algorithm name other than `PCA`, `t-SNE` and `UMAP`,
`dimensionality_reduction` raises nothing and returns no result (the
`None, None` pair, modelled as `none`). -/
theorem C6_unknown_algorithm_is_noop (PCAlib : Nat → Reducer)
    (TSNElib : Nat → Nat → Reducer) (UMAPlib : Nat → ℚ → String → Nat → Reducer)
    (X : Table) (algorithm : String)
    (h1 : algorithm ≠ "PCA") (h2 : algorithm ≠ "t-SNE") (h3 : algorithm ≠ "UMAP") :
    dimensionality_reduction PCAlib TSNElib UMAPlib X algorithm = none := by
  simp [dimensionality_reduction, h1, h2, h3]

/-- C6 witness: the name `LDA` is none of the three and produces no
result. -/
theorem C6_witness :
    ("LDA" ≠ "PCA" ∧ "LDA" ≠ "t-SNE" ∧ "LDA" ≠ "UMAP") ∧
    dimensionality_reduction wPCA wTSNE wUMAP exAisnps "LDA" = none :=
  ⟨⟨by decide, by decide, by decide⟩,
    C6_unknown_algorithm_is_noop wPCA wTSNE wUMAP exAisnps "LDA"
      (by decide) (by decide) (by decide)⟩

/-! ### C3 -/

/-- C3: for every encoded input matrix and each of the three selectable
algorithms, `dimensionality_reduction` produces a result whose frame
has exactly the 3 columns `x, y, z` and 3-component rows, regardless of
the input's feature count — assuming the library reducers honor their
`n_components` contract (stated as the three width hypotheses). -/
theorem C3_output_has_three_columns (PCAlib : Nat → Reducer)
    (TSNElib : Nat → Nat → Reducer) (UMAPlib : Nat → ℚ → String → Nat → Reducer)
    (hP : ∀ M r, r ∈ (PCAlib 3).fitTransform M → r.length = 3)
    (hT : ∀ M r, r ∈ (TSNElib 3 4).fitTransform M → r.length = 3)
    (hU : ∀ M r, r ∈ (UMAPlib 3 (2/10) "dice" 42).fitTransform M → r.length = 3)
    (X : Table) (algorithm : String)
    (halg : algorithm = "PCA" ∨ algorithm = "t-SNE" ∨ algorithm = "UMAP") :
    ∃ res red,
      dimensionality_reduction PCAlib TSNElib UMAPlib X algorithm = some (res, red) ∧
      res.columns = ["x", "y", "z"] ∧ res.columns.length = 3 ∧
      ∀ r ∈ res.rows, r.length = 3 := by
  rcases halg with h | h | h <;> subst h
  · exact ⟨_, _, rfl, rfl, rfl, fun r hr => hP _ r hr⟩
  · exact ⟨_, _, rfl, rfl, rfl, fun r hr => hT _ r hr⟩
  · exact ⟨_, _, rfl, rfl, rfl, fun r hr => hU _ r hr⟩

/-- C3 witness: with a shape-respecting library instantiation, the UMAP
branch on a 1-feature input yields the 3-column frame. -/
theorem C3_witness :
    ∃ res red,
      dimensionality_reduction wPCA wTSNE wUMAP exAisnps "UMAP" = some (res, red) ∧
      res.columns = ["x", "y", "z"] ∧ res.columns.length = 3 ∧
      ∀ r ∈ res.rows, r.length = 3 :=
  C3_output_has_three_columns wPCA wTSNE wUMAP
    (fun M r hr => by
      simp only [wPCA, constReducer3, List.mem_map] at hr
      obtain ⟨a, _, rfl⟩ := hr
      rfl)
    (fun M r hr => by
      simp only [wTSNE, constReducer3, List.mem_map] at hr
      obtain ⟨a, _, rfl⟩ := hr
      rfl)
    (fun M r hr => by
      simp only [wUMAP, constReducer3, List.mem_map] at hr
      obtain ⟨a, _, rfl⟩ := hr
      rfl)
    exAisnps "UMAP" (Or.inr (Or.inr rfl))

/-! ### C4 -/

/-- C4 counterexample: on a one-sample, one-variant VCF the loader's
output has 4 columns (the variant plus the three joined metadata
columns), not 1 = the number of variants. -/
theorem C4_counterexample :
    (vcf2df exVcf exMeta).columns.length ≠ exVcf.variants.length := by decide

/-- C4 (amended): with distinct variant IDs and every metadata sample
present among the VCF samples, the loader's row count equals the number
of samples in the variant file, and its column count equals the number
of variants plus the three metadata columns. -/
theorem C4_amended_shape (vcf : VCFFile) (meta : Table)
    (hids : (vcf.variants.map Variant.id).Nodup)
    (hcols : meta.columns = ["population", "super population", "gender"])
    (hcover : ∀ s ∈ meta.index, s ∈ vcf.samples) :
    (vcf2df vcf meta).index.length = vcf.samples.length ∧
    (vcf2df vcf meta).columns.length = vcf.variants.length + 3 := by
  have hfilter : meta.index.filter (fun s => decide (s ∉ vcf.samples)) = [] := by
    rw [List.filter_eq_nil_iff]
    intro a ha
    simpa using hcover a ha
  constructor
  · show (vcf.samples ++ meta.index.filter (fun s => decide (s ∉ vcf.samples))).length
      = vcf.samples.length
    rw [hfilter]
    simp
  · show ((vcf.variants.map Variant.id).dedup ++ meta.columns).length
      = vcf.variants.length + 3
    rw [List.length_append, hcols, List.dedup_eq_self.mpr hids]
    simp

/-- C4 witness: the amended shape statement on the tiny VCF and
metadata. -/
theorem C4_witness :
    (vcf2df exVcf exMeta).index.length = exVcf.samples.length ∧
    (vcf2df exVcf exMeta).columns.length = exVcf.variants.length + 3 :=
  C4_amended_shape exVcf exMeta (by decide) (by decide) (by decide)

/-! ### C5 -/

/-- C5 counterexample: a genotype column with two observed categories
encodes to a 2-column matrix; transforming that matrix again with the
same fitted encoder raises the encoder's input-dimension check instead
of reproducing the matrix. -/
theorem C5_counterexample :
    oheTransform (encode_genotypes exTwoCat).2 (encode_genotypes exTwoCat).1 =
      Except.error "Unexpected input dimension" := by rfl

/-- C5 (amended): the fitted encoder is deterministic — transforming
the original genotype table again reproduces exactly the fitted output
— but transforming the already-encoded matrix does not: whenever the
encoded matrix's column count differs from the fitted input's (the case
as soon as any genotype column has at least two observed categories),
`transform` raises a dimension-mismatch error. -/
theorem C5_amended_reencode_raises (df : Table)
    (hw : (encode_genotypes df).1.columns.length ≠ df.columns.length) :
    oheTransform (encode_genotypes df).2 df = Except.ok (encode_genotypes df).1 ∧
    oheTransform (encode_genotypes df).2 (encode_genotypes df).1 =
      Except.error "Unexpected input dimension" := by
  have hdim : (encode_genotypes df).2.dim = df.columns.length := rfl
  have hne : ¬ (df.columns.length ≠ (fitOhe df).dim) := by
    simp [fitOhe]
  constructor
  · show oheTransform (fitOhe df) df =
      Except.ok ((oheTransform (fitOhe df) df).toOption.getD ⟨[], [], []⟩)
    unfold oheTransform
    rw [if_neg hne]
    rfl
  · rw [oheTransform, hdim, if_pos hw]

/-- C5 witness: the amended statement at the two-category frame, where
the encoded width 2 differs from the input width 1. -/
theorem C5_witness :
    ((encode_genotypes exTwoCat).1.columns.length ≠ exTwoCat.columns.length) ∧
    (oheTransform (encode_genotypes exTwoCat).2 exTwoCat =
        Except.ok (encode_genotypes exTwoCat).1 ∧
      oheTransform (encode_genotypes exTwoCat).2 (encode_genotypes exTwoCat).1 =
        Except.error "Unexpected input dimension") :=
  ⟨by decide, C5_amended_reencode_raises exTwoCat (by decide)⟩

/-! ### C1 -/

/-- C1: the code contradicts the documented failure mode.  When parsing
the upload raises, `main` does show the error message, but instead of
treating the interaction as "no upload" (which, as the `upload = none`
run shows, renders the reference-only plot), control falls through to
`filter_user_genotypes(userdf, …)` with `userdf` unbound, so the run
dies with `NameError` and no visualization is rendered at all. -/
theorem C1_parse_error_crashes_instead_of_reference_plot :
    runUserBranch exAisnps [] (encode_genotypes exAisnps).2 [[0, 0, 0]] id
        exMeta "population" none = [Event.plot [[0, 0, 0]]] ∧
    runUserBranch exAisnps [] (encode_genotypes exAisnps).2 [[0, 0, 0]] id
        exMeta "population" (some (Except.error "invalid file")) =
      [Event.stError
        "Sorry, there was a problem processing your genotypes file.\n invalid file",
        Event.crash RunError.nameError] := by
  exact ⟨rfl, rfl⟩

/-! ### C2 and C9: the successful-upload run of the branch -/

/-- C2: for a successful upload processed with any of the three
selectable algorithms, the user's point is produced by the already
fitted reducer's `transform` path and appended with `np.concatenate`,
and every previously computed reference row of the reduced embedding is
identical (as a value) before and after the append. -/
theorem C2_reference_rows_unchanged (PCAlib : Nat → Reducer)
    (TSNElib : Nat → Nat → Reducer) (UMAPlib : Nat → ℚ → String → Nat → Reducer)
    (Xenc : Table) (algorithm : String)
    (halg : algorithm = "PCA" ∨ algorithm = "t-SNE" ∨ algorithm = "UMAP")
    (Xr : NumDf) (red : Reducer)
    (hred : dimensionality_reduction PCAlib TSNElib UMAPlib Xenc algorithm
      = some (Xr, red))
    (aisnps userdf : Table) (Xe : List (List (Option ℚ))) (encoder : OHE)
    (dfsamples : Table) (level : String) (ue : Table)
    (hok : oheTransform encoder (filter_user_genotypes userdf aisnps).1
      = Except.ok ue) :
    (runUserBranch aisnps Xe encoder Xr.rows red.transform dfsamples level
        (some (Except.ok userdf))).getD 1 (Event.crash RunError.nameError)
      = Event.plot (Xr.rows ++ red.transform [impute_missing (Xe ++ tableToMatrix ue)]) ∧
    (Xr.rows ++ red.transform [impute_missing (Xe ++ tableToMatrix ue)]).take
        Xr.rows.length = Xr.rows ∧
    ∀ i, i < Xr.rows.length →
      (Xr.rows ++ red.transform [impute_missing (Xe ++ tableToMatrix ue)]).getD i []
        = Xr.rows.getD i [] := by
  refine ⟨?_, List.take_left _ _, ?_⟩
  · simp only [runUserBranch, hok]
    rfl
  · intro i hi
    simp [List.getD, List.get?_eq_getElem?, List.getElem?_append, hi]

/-- C2 witness: the prefix-preservation statement on a concrete
one-sample reference set, PCA branch, and a shape-respecting library
instantiation. -/
theorem C2_witness :
    (runUserBranch exAisnps [] (encode_genotypes exAisnps).2
        (⟨["s1"], ["x", "y", "z"], [[0, 0, 0]]⟩ : NumDf).rows constReducer3.transform
        exMeta "population" (some (Except.ok exUserdf))).getD 1
        (Event.crash RunError.nameError)
      = Event.plot ((⟨["s1"], ["x", "y", "z"], [[0, 0, 0]]⟩ : NumDf).rows ++
          constReducer3.transform [impute_missing
            ([] ++ tableToMatrix ⟨["your_sample"], ["rs1_1"], [[PyVal.num 0]]⟩)]) ∧
    ((⟨["s1"], ["x", "y", "z"], [[0, 0, 0]]⟩ : NumDf).rows ++
        constReducer3.transform [impute_missing
          ([] ++ tableToMatrix ⟨["your_sample"], ["rs1_1"], [[PyVal.num 0]]⟩)]).take
        (⟨["s1"], ["x", "y", "z"], [[0, 0, 0]]⟩ : NumDf).rows.length
      = (⟨["s1"], ["x", "y", "z"], [[0, 0, 0]]⟩ : NumDf).rows ∧
    ∀ i, i < (⟨["s1"], ["x", "y", "z"], [[0, 0, 0]]⟩ : NumDf).rows.length →
      ((⟨["s1"], ["x", "y", "z"], [[0, 0, 0]]⟩ : NumDf).rows ++
          constReducer3.transform [impute_missing
            ([] ++ tableToMatrix ⟨["your_sample"], ["rs1_1"], [[PyVal.num 0]]⟩)]).getD i []
        = (⟨["s1"], ["x", "y", "z"], [[0, 0, 0]]⟩ : NumDf).rows.getD i [] :=
  C2_reference_rows_unchanged wPCA wTSNE wUMAP (encode_genotypes exAisnps).1 "PCA"
    (Or.inl rfl) ⟨["s1"], ["x", "y", "z"], [[0, 0, 0]]⟩ constReducer3 rfl
    exAisnps exUserdf [] (encode_genotypes exAisnps).2 exMeta "population"
    ⟨["your_sample"], ["rs1_1"], [[PyVal.num 0]]⟩ rfl

/-- C9: for a successful upload, the branch emits exactly one `fit`,
on the reference embedding as it is *before* the user's reduced point
is appended and labeled by the selected population resolution, and its
`predict`/`predict_proba` calls receive only the single user point. -/
theorem C9_fit_reference_predict_user_only (PCAlib : Nat → Reducer)
    (TSNElib : Nat → Nat → Reducer) (UMAPlib : Nat → ℚ → String → Nat → Reducer)
    (Xenc : Table) (algorithm : String)
    (halg : algorithm = "PCA" ∨ algorithm = "t-SNE" ∨ algorithm = "UMAP")
    (Xr : NumDf) (red : Reducer)
    (hred : dimensionality_reduction PCAlib TSNElib UMAPlib Xenc algorithm
      = some (Xr, red))
    (aisnps userdf : Table) (Xe : List (List (Option ℚ))) (encoder : OHE)
    (dfsamples : Table) (level : String) (ue : Table)
    (hok : oheTransform encoder (filter_user_genotypes userdf aisnps).1
      = Except.ok ue) :
    runUserBranch aisnps Xe encoder Xr.rows red.transform dfsamples level
        (some (Except.ok userdf))
      = [Event.knnFitOn Xr.rows (popLabels dfsamples level),
          Event.plot (Xr.rows ++
            red.transform [impute_missing (Xe ++ tableToMatrix ue)]),
          Event.knnPredictOn
            (red.transform [impute_missing (Xe ++ tableToMatrix ue)]),
          Event.knnPredictProbaOn
            (red.transform [impute_missing (Xe ++ tableToMatrix ue)])] := by
  simp only [runUserBranch, hok]

/-- C9 witness: the trace equality at the same concrete instances as
the C2 witness, UMAP branch. -/
theorem C9_witness :
    runUserBranch exAisnps [] (encode_genotypes exAisnps).2
        (⟨["s1"], ["x", "y", "z"], [[0, 0, 0]]⟩ : NumDf).rows constReducer3.transform
        exMeta "population" (some (Except.ok exUserdf))
      = [Event.knnFitOn (⟨["s1"], ["x", "y", "z"], [[0, 0, 0]]⟩ : NumDf).rows
            (popLabels exMeta "population"),
          Event.plot ((⟨["s1"], ["x", "y", "z"], [[0, 0, 0]]⟩ : NumDf).rows ++
            constReducer3.transform [impute_missing
              ([] ++ tableToMatrix ⟨["your_sample"], ["rs1_1"], [[PyVal.num 0]]⟩)]),
          Event.knnPredictOn (constReducer3.transform [impute_missing
            ([] ++ tableToMatrix ⟨["your_sample"], ["rs1_1"], [[PyVal.num 0]]⟩)]),
          Event.knnPredictProbaOn (constReducer3.transform [impute_missing
            ([] ++ tableToMatrix ⟨["your_sample"], ["rs1_1"], [[PyVal.num 0]]⟩)])] :=
  C9_fit_reference_predict_user_only wPCA wTSNE wUMAP (encode_genotypes exAisnps).1
    "UMAP" (Or.inr (Or.inr rfl)) ⟨["s1"], ["x", "y", "z"], [[0, 0, 0]]⟩ constReducer3
    rfl exAisnps exUserdf [] (encode_genotypes exAisnps).2 exMeta "population"
    ⟨["your_sample"], ["rs1_1"], [[PyVal.num 0]]⟩ rfl

/-! ### C8: the user record intersects the upload with the panel -/

theorem lookupRow_eq_none (t : Table) (s : String) (h : s ∉ t.index) :
    t.lookupRow s = none := by
  unfold Table.lookupRow
  rw [List.findIdx?_eq_none_iff.mpr]
  · rfl
  · intro x hx
    simp only [decide_eq_false_iff_not]
    rintro rfl
    exact h hx

theorem lookupRow_exists (t : Table) (s : String) (h : s ∈ t.index) :
    ∃ r, t.lookupRow s = some r := by
  unfold Table.lookupRow
  have hs : (t.index.findIdx? (· = s)).isSome := by
    rw [List.findIdx?_isSome]
    exact List.any_eq_true.mpr ⟨s, h, by simp⟩
  obtain ⟨i, hi⟩ := Option.isSome_iff_exists.mp hs
  exact ⟨_, by rw [hi]; rfl⟩

theorem getD_map_indexOf (cols : List String) (f : String → PyVal) (snp : String)
    (h : snp ∈ cols) :
    (cols.map f).getD (cols.indexOf snp) PyVal.nan = f snp := by
  have hlt : cols.indexOf snp < cols.length := List.indexOf_lt_length.mpr h
  rw [List.getD_eq_getElem _ _ (by simpa using hlt), List.getElem_map,
    List.getElem_indexOf hlt]

/-- C8: the user record produced during ingestion has exactly the
reference frame's columns (so uploaded SNPs outside the panel do not
appear); a panel column whose SNP is present in the upload carries the
uploaded genotype value, and a panel column with no matching SNP stays
NaN rather than being dropped. -/
theorem C8_user_record_intersects_panel (userdf aisnps_1kg : Table)
    (hnd : userdf.index.Nodup) :
    (filter_user_genotypes userdf aisnps_1kg).1.index = ["your_sample"] ∧
    (filter_user_genotypes userdf aisnps_1kg).1.columns = aisnps_1kg.columns ∧
    (∀ snp ∈ aisnps_1kg.columns, snp ∉ userdf.index →
      (filter_user_genotypes userdf aisnps_1kg).1.cellAt "your_sample" snp
        = PyVal.nan) ∧
    (∀ snp ∈ aisnps_1kg.columns, snp ∈ userdf.index →
      ∃ row, userdf.lookupRow snp = some row ∧
        (filter_user_genotypes userdf aisnps_1kg).1.cellAt "your_sample" snp
          = cellOfRow userdf.columns row "genotype") := by
  have hcell : ∀ snp ∈ aisnps_1kg.columns,
      (filter_user_genotypes userdf aisnps_1kg).1.cellAt "your_sample" snp
        = (match userdf.lookupRow snp with
            | none => PyVal.nan
            | some row => cellOfRow userdf.columns row "genotype") := by
    intro snp hs
    show (aisnps_1kg.columns.map _).getD (aisnps_1kg.columns.indexOf snp) PyVal.nan = _
    rw [getD_map_indexOf _ _ _ hs]
  refine ⟨rfl, rfl, ?_, ?_⟩
  · intro snp hs hno
    rw [hcell snp hs, lookupRow_eq_none userdf snp hno]
  · intro snp hs hyes
    obtain ⟨row, hrow⟩ := lookupRow_exists userdf snp hyes
    exact ⟨row, hrow, by rw [hcell snp hs, hrow]⟩

/-- C8 witness: the intersection statement at a concrete upload and
panel. -/
theorem C8_witness :
    exUserdf.index.Nodup ∧
    ((filter_user_genotypes exUserdf exAisnps).1.index = ["your_sample"] ∧
      (filter_user_genotypes exUserdf exAisnps).1.columns = exAisnps.columns ∧
      (∀ snp ∈ exAisnps.columns, snp ∉ exUserdf.index →
        (filter_user_genotypes exUserdf exAisnps).1.cellAt "your_sample" snp
          = PyVal.nan) ∧
      (∀ snp ∈ exAisnps.columns, snp ∈ exUserdf.index →
        ∃ row, exUserdf.lookupRow snp = some row ∧
          (filter_user_genotypes exUserdf exAisnps).1.cellAt "your_sample" snp
            = cellOfRow exUserdf.columns row "genotype")) :=
  ⟨by decide, C8_user_record_intersects_panel exUserdf exAisnps (by decide)⟩

/-! ### C10: the imputer returns the rounded final row only -/

theorem getLastD_eq_getD (l : List α) (d : α) :
    l.getLastD d = l.getD (l.length - 1) d := by
  rw [List.getLastD_eq_getLast?, List.getLast?_eq_getElem?]
  simp [List.getD, List.get?_eq_getElem?]

theorem rint_is_integer (q : ℚ) : ∃ z : ℤ, rint q = (z : ℚ) := by
  show ∃ z : ℤ,
    (if q - (⌊q⌋ : ℚ) < 1/2 then ((⌊q⌋ : ℤ) : ℚ)
      else if 1/2 < q - (⌊q⌋ : ℚ) then ((⌊q⌋ + 1 : ℤ) : ℚ)
      else if Even ⌊q⌋ then ((⌊q⌋ : ℤ) : ℚ) else ((⌊q⌋ + 1 : ℤ) : ℚ)) = (z : ℚ)
  split_ifs
  · exact ⟨⌊q⌋, rfl⟩
  · exact ⟨⌊q⌋ + 1, rfl⟩
  · exact ⟨⌊q⌋, rfl⟩
  · exact ⟨⌊q⌋ + 1, rfl⟩

/-- C10: `impute_missing` returns exactly the final row of the
KNN-imputed combined matrix — the user row, the imputation result for
all the reference rows (the matrix has one imputed row per input row)
being discarded — with every entry rounded to an integer by
`np.rint`. -/
theorem C10_impute_missing_returns_rounded_last_row
    (X : List (List (Option ℚ))) (hX : X ≠ []) :
    (knnImpute X).length = X.length ∧
    impute_missing X = ((knnImpute X).getD (X.length - 1) []).map rint ∧
    ∀ v ∈ impute_missing X, ∃ z : ℤ, v = (z : ℚ) := by
  have hlen : (knnImpute X).length = X.length := by simp [knnImpute]
  refine ⟨hlen, ?_, ?_⟩
  · unfold impute_missing
    rw [getLastD_eq_getD, hlen]
  · intro v hv
    unfold impute_missing at hv
    rw [List.mem_map] at hv
    obtain ⟨w, _, rfl⟩ := hv
    exact rint_is_integer w

/-- C10 witness: the statement at a concrete 2×2 matrix with one
missing cell. -/
theorem C10_witness :
    ([[some 1, none], [some 0, some 0]] : List (List (Option ℚ))) ≠ [] ∧
    ((knnImpute [[some 1, none], [some 0, some 0]]).length
        = ([[some 1, none], [some 0, some 0]] : List (List (Option ℚ))).length ∧
      impute_missing [[some 1, none], [some 0, some 0]]
        = ((knnImpute [[some 1, none], [some 0, some 0]]).getD
            (([[some 1, none], [some 0, some 0]] :
              List (List (Option ℚ))).length - 1) []).map rint ∧
      ∀ v ∈ impute_missing [[some 1, none], [some 0, some 0]],
        ∃ z : ℤ, v = (z : ℚ)) :=
  ⟨by decide, C10_impute_missing_returns_rounded_last_row
    [[some 1, none], [some 0, some 0]] (by decide)⟩

/-! ### C7: the probability vector sums to 1 and matches the predicted
label -/

theorem sum_map_div (l : List ℚ) (t : ℚ) :
    (l.map (fun v => v / t)).sum = l.sum / t := by
  induction l with
  | nil => simp
  | cons a l ih => simp [ih, add_div]

theorem votesFor_nonneg (pairs : List (ℚ × String)) (c : String)
    (h : ∀ p ∈ pairs, 0 ≤ p.1) : 0 ≤ votesFor pairs c := by
  apply List.sum_nonneg
  intro x hx
  rw [List.mem_map] at hx
  obtain ⟨p, hp, rfl⟩ := hx
  exact h p (List.mem_of_mem_filter hp)

theorem le_votesFor (pairs : List (ℚ × String)) (p : ℚ × String)
    (hp : p ∈ pairs) (h : ∀ r ∈ pairs, 0 ≤ r.1) :
    p.1 ≤ votesFor pairs p.2 := by
  apply List.single_le_sum
  · intro x hx
    rw [List.mem_map] at hx
    obtain ⟨r, hr, rfl⟩ := hx
    exact h r (List.mem_of_mem_filter hr)
  · rw [List.mem_map]
    exact ⟨p, List.mem_filter.mpr ⟨hp, by simp⟩, rfl⟩

theorem length_nnIdxs (dist : List ℚ → List ℚ → ℚ) (m : KNNModel)
    (q : List ℚ) : (nnIdxs dist m q).length = min m.k m.fitX.length := by
  unfold nnIdxs
  rw [List.length_take, length_sortByLe, List.length_range]

theorem mem_nnIdxs_lt (dist : List ℚ → List ℚ → ℚ) (m : KNNModel)
    (q : List ℚ) (i : Nat) (h : i ∈ nnIdxs dist m q) : i < m.fitX.length := by
  unfold nnIdxs at h
  exact List.mem_range.mp ((mem_sortByLe _ _ _).mp (List.mem_of_mem_take h))

theorem nnWeight_nonneg (dist : List ℚ → List ℚ → ℚ)
    (hd : ∀ a b, 0 ≤ dist a b) (m : KNNModel) (q : List ℚ) (i : Nat) :
    0 ≤ nnWeight dist m q i := by
  unfold nnWeight
  split_ifs
  · exact zero_le_one
  · exact le_refl 0
  · exact inv_nonneg.mpr (hd _ _)

theorem exists_pos_weight (dist : List ℚ → List ℚ → ℚ)
    (hd : ∀ a b, 0 ≤ dist a b) (m : KNNModel) (q : List ℚ)
    (hne : nnIdxs dist m q ≠ []) :
    ∃ i ∈ nnIdxs dist m q, 0 < nnWeight dist m q i := by
  cases hz : nnZeroMode dist m q with
  | true =>
      obtain ⟨i, hi, h0⟩ := List.any_eq_true.mp hz
      refine ⟨i, hi, ?_⟩
      have hd0 : nnDist dist m q i = 0 := of_decide_eq_true h0
      have : nnWeight dist m q i = 1 := by
        unfold nnWeight
        rw [hz, if_pos rfl, if_pos hd0]
      rw [this]
      exact zero_lt_one
  | false =>
      obtain ⟨i, hi⟩ := List.exists_mem_of_ne_nil _ hne
      refine ⟨i, hi, ?_⟩
      have hnz : ¬ nnDist dist m q i = 0 := by
        intro h0
        have : nnZeroMode dist m q = true :=
          List.any_eq_true.mpr ⟨i, hi, decide_eq_true h0⟩
        rw [hz] at this
        exact Bool.false_ne_true this
      have hpos : 0 < nnDist dist m q i :=
        lt_of_le_of_ne (hd _ _) (Ne.symm hnz)
      have : nnWeight dist m q i = (nnDist dist m q i)⁻¹ := by
        unfold nnWeight
        rw [hz]
        rfl
      rw [this]
      exact inv_pos.mpr hpos

theorem knnPredictProba_sum_one (dist : List ℚ → List ℚ → ℚ)
    (hd : ∀ a b, 0 ≤ dist a b) (m : KNNModel)
    (hlen : m.fitY.length = m.fitX.length)
    (hk : 1 ≤ m.k) (hn : 1 ≤ m.fitX.length) (q : List ℚ) :
    (knnPredictProba dist m q).sum = 1 := by
  have hne : nnIdxs dist m q ≠ [] := by
    apply List.ne_nil_of_length_pos
    rw [length_nnIdxs]
    exact lt_min hk hn
  obtain ⟨i, hi, hwi⟩ := exists_pos_weight dist hd m q hne
  have hiX : i < m.fitX.length := mem_nnIdxs_lt dist m q i hi
  have hiy : i < m.fitY.length := by rw [hlen]; exact hiX
  have hlab : m.fitY.getD i "" ∈ npUnique m.fitY := by
    apply (mem_sortByLe _ _ _).mpr
    apply List.mem_dedup.mpr
    rw [List.getD_eq_getElem _ _ hiy]
    exact List.getElem_mem _
  have hnn : ∀ p ∈ nbrPairs dist m q, 0 ≤ p.1 := by
    intro p hp
    obtain ⟨j, _, rfl⟩ := List.mem_map.mp hp
    exact nnWeight_nonneg dist hd m q j
  have hpmem : (nnWeight dist m q i, m.fitY.getD i "") ∈ nbrPairs dist m q :=
    List.mem_map.mpr ⟨i, hi, rfl⟩
  have hle := le_votesFor _ _ hpmem hnn
  have hvp : 0 < votesFor (nbrPairs dist m q) (m.fitY.getD i "") :=
    lt_of_lt_of_le hwi hle
  have hvnn : ∀ v ∈ (npUnique m.fitY).map (votesFor (nbrPairs dist m q)), 0 ≤ v := by
    intro v hv
    obtain ⟨c, _, rfl⟩ := List.mem_map.mp hv
    exact votesFor_nonneg _ c hnn
  have hmemv : votesFor (nbrPairs dist m q) (m.fitY.getD i "")
      ∈ (npUnique m.fitY).map (votesFor (nbrPairs dist m q)) :=
    List.mem_map.mpr ⟨_, hlab, rfl⟩
  have hsle := List.single_le_sum hvnn _ hmemv
  have ht : 0 < ((npUnique m.fitY).map (votesFor (nbrPairs dist m q))).sum :=
    lt_of_lt_of_le hvp hsle
  unfold knnPredictProba
  simp only [if_neg (ne_of_gt ht)]
  rw [sum_map_div]
  exact div_self (ne_of_gt ht)

/-- C7: for every classified sample, the probability vector returned by
the distance-weighted 9-NN classifier sums to exactly 1 (the floating
tolerance is not needed in the rational model), and the class at the
argmax of that vector is the single predicted label, assuming a
nonnegative metric, labels matching the training rows, and at least
`n_neighbors = 9` training samples (sklearn raises otherwise). -/
theorem C7_proba_sums_to_one_and_argmax_is_prediction
    (dist : List ℚ → List ℚ → ℚ) (hd : ∀ a b, 0 ≤ dist a b)
    (X : List (List ℚ)) (y : List String)
    (hlen : y.length = X.length) (hn : 9 ≤ X.length) (q : List ℚ) :
    (knnPredictProba dist (knn9fit X y) q).sum = 1 ∧
    knnPredict dist (knn9fit X y) q =
      (npUnique y).getD (idxOfMax (knnPredictProba dist (knn9fit X y) q)) "" := by
  constructor
  · exact knnPredictProba_sum_one dist hd (knn9fit X y) hlen
      (by show (1 : ℕ) ≤ 9; norm_num) (le_trans (by norm_num) hn) q
  · rfl

/-- Concrete squared-euclidean metric for the C7 witness. -/
def sqDist (a b : List ℚ) : ℚ :=
  ((a.zip b).map (fun p => (p.1 - p.2) ^ 2)).sum

theorem sqDist_nonneg (a b : List ℚ) : 0 ≤ sqDist a b := by
  apply List.sum_nonneg
  intro x hx
  obtain ⟨p, _, rfl⟩ := List.mem_map.mp hx
  exact sq_nonneg _

/-- Nine 1-dimensional training points for the C7 witness. -/
def wX9 : List (List ℚ) :=
  [[0], [1], [2], [3], [4], [5], [6], [7], [8]]

/-- Their population labels. -/
def wy9 : List String :=
  ["A", "B", "A", "B", "A", "B", "A", "B", "A"]

/-- C7 witness: the statement at nine concrete training points and the
squared-euclidean metric. -/
theorem C7_witness :
    (knnPredictProba sqDist (knn9fit wX9 wy9) [0]).sum = 1 ∧
    knnPredict sqDist (knn9fit wX9 wy9) [0] =
      (npUnique wy9).getD
        (idxOfMax (knnPredictProba sqDist (knn9fit wX9 wy9) [0])) "" :=
  C7_proba_sums_to_one_and_argmax_is_prediction sqDist sqDist_nonneg wX9 wy9
    (by decide) (by decide) [0]

end Ezancestry
